import Mathlib

/-!
Verification of the context-server core (context-server/index.js) of the
tailscale-network-mcp-server repository.

The JavaScript source is embedded shallowly:

- JSON values are the inductive `Json`; JavaScript truthiness is `jsTruthy`.
- The per-context metadata object built by `ContextStorage.saveContext`
  (`{...metadata, lastModified, size, version}`) is the structure `MetaObj`:
  the three fields written by the store are explicit, every other
  caller-supplied field is kept opaquely in `extra`.  A caller metadata whose
  `version` field is absent (or a non-numeric falsy value, which
  `metadata.version || 0` also turns into `0`) is modelled as `version = none`.
- A node is the state `Srv`: the data directory (a map from file name to file
  content, keyed by the path relative to `baseDir`, i.e. the second argument
  of `path.join` in `getContextPath`/`getMetadataPath`), the set of paths on
  which file operations currently raise, the two in-memory caches
  (`contextCache`, `metadataCache`), and the ordered list of events emitted on
  the `contextEvents` EventEmitter.
- Express route handlers become pure functions from a request to a response
  and a new state; the asynchronous fan-out to regional peers is passed an
  explicit outcome oracle (one outcome per contacted peer) and its results are
  returned alongside the response.
- The ReplicaSync logic of `setupSyncWithCentral` is embedded per event: the
  catch-up body for one listed context (`syncCatchupOne`) and the anonymous
  `update` / `delete` stream listeners (`syncStreamUpdate`, `syncStreamDelete`).
  The payload fetched from the upstream with `centralClient.get` is passed as
  an explicit argument.
-/

/-- An arbitrary JSON value, as parsed by body-parser / JSON.parse. -/
inductive Json where
  | null
  | bool (b : Bool)
  | num (n : Int)
  | str (s : String)
  | arr (elems : List Json)
  | obj (fields : List (String × Json))

/-- JavaScript truthiness of a JSON value (used by `if (!context)` checks). -/
def jsTruthy : Json → Bool
  | Json.null => false
  | Json.bool b => b
  | Json.num n => decide (n ≠ 0)
  | Json.str s => decide (s ≠ "")
  | Json.arr _ => true
  | Json.obj _ => true

/-- JSON string escaping for the two characters JSON.stringify always escapes
in the payloads considered here. -/
def escapeString (s : String) : String :=
  String.mk (s.data.foldr (fun c acc => if c = '"' ∨ c = '\\' then '\\' :: c :: acc else c :: acc) [])

mutual

/-- JSON.stringify of a value (compact form, no spaces), used by
`saveContext` to compute `size` and to serialize the payload file. -/
def stringify : Json → String
  | Json.null => "null"
  | Json.bool true => "true"
  | Json.bool false => "false"
  | Json.num n => toString n
  | Json.str s => "\"" ++ escapeString s ++ "\""
  | Json.arr es => "[" ++ stringifyElems es ++ "]"
  | Json.obj fs => "\x7b" ++ stringifyFields fs ++ "\x7d"

/-- Comma-separated serialization of array elements. -/
def stringifyElems : List Json → String
  | [] => ""
  | [j] => stringify j
  | j :: rest => stringify j ++ "," ++ stringifyElems rest

/-- Comma-separated serialization of object fields. -/
def stringifyFields : List (String × Json) → String
  | [] => ""
  | [(k, v)] => "\"" ++ escapeString k ++ "\":" ++ stringify v
  | (k, v) :: rest => "\"" ++ escapeString k ++ "\":" ++ stringify v ++ "," ++ stringifyFields rest

end

/-- The metadata object attached to a context.  `version`, `lastModified` and
`size` are the fields `saveContext` writes; `extra` holds every other
caller-supplied field spread in by `{...metadata, ...}`. -/
structure MetaObj where
  version : Option Int := none
  lastModified : Option String := none
  size : Option Nat := none
  extra : List (String × Json) := []

/-- Content of one file in the data directory: a serialized payload
(`{id}.json`) or a serialized metadata record (`{id}.meta.json`). -/
inductive DiskFile where
  | payload (context : Json)
  | metaRecord (metadata : MetaObj)

/-- An event emitted on the process-wide `contextEvents` EventEmitter. -/
inductive BusEvent where
  | contextUpdated (contextId : String) (metadata : MetaObj)
  | contextDeleted (contextId : String)

/-- Association-list lookup with string keys (the first binding wins, as in a
JavaScript `Map` or a directory of files). -/
def lookupKey {α : Type} : List (String × α) → String → Option α
  | [], _ => none
  | (k, v) :: rest, key => if k = key then some v else lookupKey rest key

/-- Association-list update: overwrite the binding in place, or append a new
one (the insertion-order semantics of `Map.set` and of writing a file). -/
def setKey {α : Type} : List (String × α) → String → α → List (String × α)
  | [], key, v => [(key, v)]
  | (k, w) :: rest, key, v => if k = key then (key, v) :: rest else (k, w) :: setKey rest key v

/-- Association-list removal (`Map.delete`, `fs.unlink`). -/
def delKey {α : Type} : List (String × α) → String → List (String × α)
  | [], _ => []
  | (k, w) :: rest, key => if k = key then delKey rest key else (k, w) :: delKey rest key

/-- State of one context-server node. -/
structure Srv where
  /-- the data directory: file name (relative to `baseDir`) to content -/
  disk : List (String × DiskFile) := []
  /-- paths on which `readFile`/`writeFile`/`unlink` currently raise -/
  failing : List String := []
  /-- the module-level `contextCache` Map -/
  contextCache : List (String × Json) := []
  /-- the module-level `metadataCache` Map -/
  metadataCache : List (String × MetaObj) := []
  /-- events emitted on `contextEvents`, oldest first -/
  events : List BusEvent := []

/-- File name of the payload slot of a context, the relative part of
`getContextPath`. -/
def contextFileName (contextId : String) : String := contextId ++ ".json"

/-- File name of the metadata slot of a context, the relative part of
`getMetadataPath`. -/
def metadataFileName (contextId : String) : String := contextId ++ ".meta.json"

/-- Model of `readFileAsync`: the stored content, or `none` when the file is absent or
the read raises. -/
def readFileAt (s : Srv) (p : String) : Option DiskFile :=
  if p ∈ s.failing then none else lookupKey s.disk p

/-- Model of `writeFileAsync`: `none` when the write raises, otherwise the updated
state. -/
def writeFileAt (s : Srv) (p : String) (f : DiskFile) : Option Srv :=
  if p ∈ s.failing then none else some { s with disk := setKey s.disk p f }

/-- Model of `fs.unlink`: raises (`none`) when the path is failing or the file is
absent. -/
def unlinkFileAt (s : Srv) (p : String) : Option Srv :=
  if p ∈ s.failing then none
  else
    match lookupKey s.disk p with
    | none => none
    | some _ => some { s with disk := delKey s.disk p }

/-- Substring scan over character lists (`String.prototype.includes`). -/
def strContainsAux (pat : List Char) : List Char → Bool
  | [] => pat.isPrefixOf []
  | c :: rest => pat.isPrefixOf (c :: rest) || strContainsAux pat rest

/-- The `s.includes(pat)` test of JavaScript strings. -/
def strContains (s pat : String) : Bool := strContainsAux pat.data s.data

/-- The `s.endsWith(suffix)` test of JavaScript strings. -/
def strEndsWith (s suffix : String) : Bool := suffix.data.isSuffixOf s.data

/-- Split a string on the slash character. -/
def splitSlashAux : List Char → List Char → List String
  | [], acc => [String.mk acc.reverse]
  | c :: rest, acc => if c = '/' then String.mk acc.reverse :: splitSlashAux rest [] else splitSlashAux rest (c :: acc)

/-- Components of a slash-separated path. -/
def splitSlash (s : String) : List String := splitSlashAux s.data []

/-- POSIX path resolution of a component list: drop empty and dot components,
let a dot-dot component cancel the preceding one. -/
def resolveComponents (cs : List String) : List String :=
  cs.foldl (fun acc c => if c = "" ∨ c = "." then acc else if c = ".." then acc.dropLast else acc ++ [c]) []

/-- Whether `path.join(baseDir, file)` still resolves to a location inside
`baseDir` (models the file-system semantics the confinement claim is about). -/
def staysWithin (baseDir file : String) : Bool :=
  (resolveComponents (splitSlash baseDir)).isPrefixOf (resolveComponents (splitSlash baseDir ++ splitSlash file))

/-- Model of `path.basename(file)`: the part after the last slash. -/
def basenamePart (file : String) : String := (splitSlash file).getLastD file

/-- Model of `path.basename(file, suffix)`: the basename with `suffix` removed when it
is a proper suffix of it. -/
def basenameDropSuffix (file suffix : String) : String :=
  let b := basenamePart file
  if b ≠ suffix ∧ strEndsWith b suffix then String.mk (b.data.take (b.data.length - suffix.data.length)) else b

namespace ContextStorage

/-- Embedding of `ContextStorage.getMetadata`: cache first, then the metadata file; any
read error yields `null` (`none`). -/
def getMetadata (s : Srv) (contextId : String) : Option MetaObj × Srv :=
  match lookupKey s.metadataCache contextId with
  | some m => (some m, s)
  | none =>
    match readFileAt s (metadataFileName contextId) with
    | some (DiskFile.metaRecord m) =>
      (some m, { s with metadataCache := setKey s.metadataCache contextId m })
    | _ => (none, s)

/-- Embedding of `ContextStorage.getContext`: cache first, then the payload file; any read
error (missing file or disk failure alike) yields `null` (`none`). -/
def getContext (s : Srv) (contextId : String) : Option Json × Srv :=
  match lookupKey s.contextCache contextId with
  | some c => (some c, s)
  | none =>
    match readFileAt s (contextFileName contextId) with
    | some (DiskFile.payload c) =>
      (some c, { s with contextCache := setKey s.contextCache contextId c })
    | _ => (none, s)

/-- The `updatedMetadata` object built at the top of `saveContext`:
`{...metadata, lastModified: now, size, version: (metadata.version || 0) + 1}`. -/
def updatedMetadata (metadata : MetaObj) (context : Json) (now : String) : MetaObj :=
  { version := some (metadata.version.getD 0 + 1)
    lastModified := some now
    size := some (stringify context).length
    extra := metadata.extra }

/-- Embedding of `ContextStorage.saveContext`: builds the updated metadata, writes the
payload file, then the metadata file, updates both caches and emits
`contextUpdated`.  Returns `(none, partialState)` when a write raises (the
caller sees a rejected promise; a payload written before the metadata write
failed stays on disk). -/
def saveContext (s : Srv) (contextId : String) (context : Json) (metadata : MetaObj)
    (now : String) : Option MetaObj × Srv :=
  let updatedMetadata : MetaObj := updatedMetadata metadata context now
  match writeFileAt s (contextFileName contextId) (DiskFile.payload context) with
  | none => (none, s)
  | some s1 =>
    match writeFileAt s1 (metadataFileName contextId) (DiskFile.metaRecord updatedMetadata) with
    | none => (none, s1)
    | some s2 =>
      (some updatedMetadata,
        { s2 with
          contextCache := setKey s2.contextCache contextId context
          metadataCache := setKey s2.metadataCache contextId updatedMetadata
          events := s2.events ++ [BusEvent.contextUpdated contextId updatedMetadata] })

/-- Embedding of `ContextStorage.listContexts`: readdir, keep files that do not contain
`.meta.` and end in `.json`, strip the `.json` suffix. -/
def listContexts (s : Srv) : List String :=
  (((s.disk.map Prod.fst).filter
      (fun file => !(strContains file ".meta.") && strEndsWith file ".json")).map
    (fun file => basenameDropSuffix file ".json"))

/-- Embedding of `ContextStorage.deleteContext`: unlink the payload file, then the metadata
file, drop both cache entries and emit `contextDeleted`; any raise is caught
and reported as `false` (with the state mutated so far kept). -/
def deleteContext (s : Srv) (contextId : String) : Bool × Srv :=
  match unlinkFileAt s (contextFileName contextId) with
  | none => (false, s)
  | some s1 =>
    match unlinkFileAt s1 (metadataFileName contextId) with
    | none => (false, s1)
    | some s2 =>
      (true,
        { s2 with
          contextCache := delKey s2.contextCache contextId
          metadataCache := delKey s2.metadataCache contextId
          events := s2.events ++ [BusEvent.contextDeleted contextId] })

end ContextStorage

/-- The node role from `SERVER_TYPE`. -/
inductive ServerType where
  | central
  | regional
  | cache
  deriving DecidableEq

/-- The configuration fields of `config` the embedded routes consult.
`hasTailscale` is the truthiness of `req.app.get('tailscale')`. -/
structure Config where
  serverType : ServerType
  dataDir : String := "./data"
  port : Nat := 3000
  hasTailscale : Bool := true

/-- Body of a PUT request: `const { context, metadata = {} } = req.body`. -/
structure PutBody where
  context : Option Json := none
  metadata : MetaObj := {}

/-- Body of an HTTP response produced by the embedded routes. -/
inductive RespBody where
  | jsonValue (j : Json)
  | metaValue (m : MetaObj)
  | errMsg (msg : String)
  | putSuccess (contextId : String) (metadata : MetaObj)
  | deleteSuccess

/-- An HTTP response: status code and JSON body. -/
structure HttpResponse where
  status : Nat
  body : RespBody

/-- A peer record returned by the Tailscale peer directory. -/
structure Peer where
  name : String := ""
  ip : String
  online : Bool := true
  tags : List String := []

/-- Outcome of one outbound axios request during fan-out: an HTTP status on
success, an error message (network failure, timeout, non-2xx) otherwise. -/
inductive PropOutcome where
  | ok (status : Nat)
  | err (msg : String)

/-- Whether an outbound request outcome counts as a success. -/
def outcomeOk : PropOutcome → Bool
  | PropOutcome.ok _ => true
  | PropOutcome.err _ => false

/-- One entry of the `propagationResults` array. -/
structure PropResult where
  server : String
  success : Bool
  statusCode : Option Nat := none
  error : Option String := none

/-- Descriptor of one outbound axios request sent during fan-out (URL and the
`timeout` option passed to axios). -/
structure OutboundRequest where
  url : String
  timeoutMs : Nat

/-- The label `server.name || server.ip` used to label per-peer results. -/
def serverLabel (p : Peer) : String := if p.name = "" then p.ip else p.name

/-- Embedding of `discoverRegionalServers`: keep online peers carrying a regional tag. -/
def discoverRegionalServers (peers : List Peer) : List Peer :=
  peers.filter (fun p => p.online && (p.tags.contains "tag:regional" || p.tags.contains "type:regional"))

/-- The axios PUT issued to one regional peer by `propagateToRegionals`
(`timeout: 10000`). -/
def propagationRequest (port : Nat) (p : Peer) (contextId : String) : OutboundRequest :=
  { url := "http://" ++ p.ip ++ ":" ++ toString port ++ "/contexts/" ++ contextId
    timeoutMs := 10000 }

/-- The axios DELETE issued to one regional peer by
`propagateDeletionToRegionals` (`timeout: 10000`). -/
def deletionRequest (port : Nat) (p : Peer) (contextId : String) : OutboundRequest :=
  { url := "http://" ++ p.ip ++ ":" ++ toString port ++ "/contexts/" ++ contextId
    timeoutMs := 10000 }

/-- Embedding of `propagateToRegionals`: push the update to every discovered regional peer;
a per-peer failure is caught, logged and recorded as a `success: false` entry.
The network outcome of the request to the i-th discovered peer is
`outcome i`. -/
def propagateToRegionals (port : Nat) (peers : List Peer) (contextId : String)
    (context : Json) (metadata : MetaObj) (outcome : Nat → PropOutcome) : List PropResult :=
  (discoverRegionalServers peers).enum.map (fun pr =>
    match outcome pr.1 with
    | PropOutcome.ok status =>
      { server := serverLabel pr.2, success := true, statusCode := some status, error := none }
    | PropOutcome.err msg =>
      { server := serverLabel pr.2, success := false, statusCode := none, error := some msg })

/-- Embedding of `propagateDeletionToRegionals`: same shape for deletions. -/
def propagateDeletionToRegionals (port : Nat) (peers : List Peer) (contextId : String)
    (outcome : Nat → PropOutcome) : List PropResult :=
  (discoverRegionalServers peers).enum.map (fun pr =>
    match outcome pr.1 with
    | PropOutcome.ok status =>
      { server := serverLabel pr.2, success := true, statusCode := some status, error := none }
    | PropOutcome.err msg =>
      { server := serverLabel pr.2, success := false, statusCode := none, error := some msg })

/-- The GET `/contexts/:contextId` route: `storage.getContext`, then
`if (!context)` return 404 (with a role-specific message on cache/regional
nodes, where the central fetch is not implemented), else `res.json(context)`. -/
def getContextHandler (cfg : Config) (s : Srv) (contextId : String) : HttpResponse × Srv :=
  let r := ContextStorage.getContext s contextId
  match r.1 with
  | some c =>
    if jsTruthy c then ({ status := 200, body := RespBody.jsonValue c }, r.2)
    else if cfg.serverType = ServerType.cache ∨ cfg.serverType = ServerType.regional then
      ({ status := 404, body := RespBody.errMsg "Context not found and central fetch not implemented yet" }, r.2)
    else ({ status := 404, body := RespBody.errMsg "Context not found" }, r.2)
  | none =>
    if cfg.serverType = ServerType.cache ∨ cfg.serverType = ServerType.regional then
      ({ status := 404, body := RespBody.errMsg "Context not found and central fetch not implemented yet" }, r.2)
    else ({ status := 404, body := RespBody.errMsg "Context not found" }, r.2)

/-- The GET `/contexts/:contextId/metadata` route. -/
def getMetadataHandler (s : Srv) (contextId : String) : HttpResponse × Srv :=
  let r := ContextStorage.getMetadata s contextId
  match r.1 with
  | some m => ({ status := 200, body := RespBody.metaValue m }, r.2)
  | none => ({ status := 404, body := RespBody.errMsg "Context metadata not found" }, r.2)

/-- The PUT `/contexts/:contextId` route: reject a missing or falsy `context`
with 400, save, fan out to regionals when on a central node with Tailscale
available (asynchronously: the response does not depend on the fan-out), and
answer `{success, contextId, metadata}`.  A save failure answers 500. -/
def putContextHandler (cfg : Config) (s : Srv) (contextId : String) (body : PutBody)
    (now : String) (peers : List Peer) (outcome : Nat → PropOutcome) :
    HttpResponse × Srv × List PropResult :=
  match body.context with
  | none => ({ status := 400, body := RespBody.errMsg "Context data is required" }, s, [])
  | some context =>
    if jsTruthy context then
      match ContextStorage.saveContext s contextId context body.metadata now with
      | (some updatedMetadata, s1) =>
        let propagation :=
          if cfg.serverType = ServerType.central ∧ cfg.hasTailscale then
            propagateToRegionals cfg.port peers contextId context updatedMetadata outcome
          else []
        ({ status := 200, body := RespBody.putSuccess contextId updatedMetadata }, s1, propagation)
      | (none, s1) =>
        ({ status := 500, body := RespBody.errMsg "Failed to save context" }, s1, [])
    else ({ status := 400, body := RespBody.errMsg "Context data is required" }, s, [])

/-- The DELETE `/contexts/:contextId` route: delete locally, 500 on failure,
otherwise fan out the deletion (asynchronously) and answer `{success: true}`. -/
def deleteContextHandler (cfg : Config) (s : Srv) (contextId : String) (peers : List Peer)
    (outcome : Nat → PropOutcome) : HttpResponse × Srv × List PropResult :=
  let r := ContextStorage.deleteContext s contextId
  if r.1 then
    let propagation :=
      if cfg.serverType = ServerType.central ∧ cfg.hasTailscale then
        propagateDeletionToRegionals cfg.port peers contextId outcome
      else []
    ({ status := 200, body := RespBody.deleteSuccess }, r.2, propagation)
  else ({ status := 500, body := RespBody.errMsg "Failed to delete context" }, r.2, [])

/-- One entry of the catch-up listing obtained from
GET `/contexts?includeMetadata=true` on the upstream. -/
structure CatchupEntry where
  id : String
  metadata : MetaObj

/-- The JavaScript comparison `a < b` on possibly-undefined version fields: a
comparison involving `undefined` is false. -/
def jsLt : Option Int → Option Int → Bool
  | some a, some b => decide (a < b)
  | _, _ => false

/-- The body of the catch-up loop of `setupSyncWithCentral` for one listed
context: apply the upstream copy when there is no local metadata or the local
version is less than the upstream one
(`!localMetadata || localMetadata.version < centralMetadata.version`).
`fetchedContext` is the payload fetched from the upstream when applying.
The returned flag is false when the save raised (aborting the sync attempt). -/
def syncCatchupOne (s : Srv) (entry : CatchupEntry) (fetchedContext : Json) (now : String) :
    Srv × Bool :=
  let r := ContextStorage.getMetadata s entry.id
  let apply :=
    match r.1 with
    | none => true
    | some lm => jsLt lm.version entry.metadata.version
  if apply then
    match ContextStorage.saveContext r.2 entry.id fetchedContext entry.metadata now with
    | (some _, s2) => (s2, true)
    | (none, s2) => (s2, false)
  else (r.2, true)

/-- The anonymous `update` listener of the upstream event stream: fetch the
announced context from the upstream and save it locally with the announced
metadata (the intent comment says without emitting events; the code calls the
ordinary `saveContext`).  Any error is caught and logged. -/
def syncStreamUpdate (s : Srv) (contextId : String) (metadata : MetaObj)
    (fetchedContext : Json) (now : String) : Srv :=
  (ContextStorage.saveContext s contextId fetchedContext metadata now).2

/-- The anonymous `delete` listener of the upstream event stream: delete the
announced context locally (again through the ordinary, event-emitting
`deleteContext`). -/
def syncStreamDelete (s : Srv) (contextId : String) : Srv :=
  (ContextStorage.deleteContext s contextId).2

/-! Helper lemmas about the association-list primitives and file names. -/

theorem lookupKey_setKey_self {α : Type} (l : List (String × α)) (k : String) (v : α) :
    lookupKey (setKey l k v) k = some v := by
  induction l with
  | nil => simp [setKey, lookupKey]
  | cons hd tl ih =>
    obtain ⟨k', w⟩ := hd
    by_cases hk : k' = k <;> simp [setKey, lookupKey, hk, ih]

theorem lookupKey_setKey_ne {α : Type} (l : List (String × α)) (k k' : String) (v : α)
    (h : k ≠ k') : lookupKey (setKey l k v) k' = lookupKey l k' := by
  induction l with
  | nil => simp [setKey, lookupKey, h]
  | cons hd tl ih =>
    obtain ⟨k'', w⟩ := hd
    by_cases hk : k'' = k <;> simp [setKey, lookupKey, hk, h, ih]

theorem lookupKey_delKey_self {α : Type} (l : List (String × α)) (k : String) :
    lookupKey (delKey l k) k = none := by
  induction l with
  | nil => simp [delKey, lookupKey]
  | cons hd tl ih =>
    obtain ⟨k', w⟩ := hd
    by_cases hk : k' = k <;> simp [delKey, lookupKey, hk, ih]

theorem lookupKey_delKey_ne {α : Type} (l : List (String × α)) (k k' : String)
    (h : k ≠ k') : lookupKey (delKey l k) k' = lookupKey l k' := by
  induction l with
  | nil => simp [delKey, lookupKey]
  | cons hd tl ih =>
    obtain ⟨k'', w⟩ := hd
    by_cases hk : k'' = k <;> simp [delKey, lookupKey, hk, h, ih]

theorem string_append_cancel (a b c : String) (h : a ++ b = a ++ c) : b = c := by
  cases a with | mk as =>
  cases b with | mk bs =>
  cases c with | mk cs =>
  have h2 : as ++ bs = as ++ cs := congrArg String.data h
  exact congrArg String.mk (List.append_cancel_left h2)

theorem contextFileName_ne_metadataFileName (contextId : String) :
    contextFileName contextId ≠ metadataFileName contextId := by
  intro h
  have := string_append_cancel contextId ".json" ".meta.json" h
  simp at this

/-- Evaluation of `saveContext` when neither write raises. -/
theorem saveContext_ok (s : Srv) (contextId : String) (context : Json) (metadata : MetaObj)
    (now : String) (h1 : contextFileName contextId ∉ s.failing)
    (h2 : metadataFileName contextId ∉ s.failing) :
    ContextStorage.saveContext s contextId context metadata now =
      (some (ContextStorage.updatedMetadata metadata context now),
       { disk := setKey (setKey s.disk (contextFileName contextId) (DiskFile.payload context))
                   (metadataFileName contextId)
                   (DiskFile.metaRecord (ContextStorage.updatedMetadata metadata context now))
         failing := s.failing
         contextCache := setKey s.contextCache contextId context
         metadataCache := setKey s.metadataCache contextId
                            (ContextStorage.updatedMetadata metadata context now)
         events := s.events ++
           [BusEvent.contextUpdated contextId
              (ContextStorage.updatedMetadata metadata context now)] }) := by
  simp [ContextStorage.saveContext, writeFileAt, h1, h2]

/-- Claim C1, as amended: the version stored and returned by a successful
`saveContext` is the caller-supplied `metadata.version` (0 when absent or
falsy) plus 1; the previously stored version is never consulted, and the
result is written to the metadata file, both caches and the returned
metadata. -/
theorem c1_version_from_caller_metadata (s : Srv) (contextId : String) (context : Json)
    (metadata : MetaObj) (now : String) (m : MetaObj) (s1 : Srv)
    (h : ContextStorage.saveContext s contextId context metadata now = (some m, s1)) :
    m.version = some (metadata.version.getD 0 + 1) ∧
    lookupKey s1.metadataCache contextId = some m ∧
    lookupKey s1.disk (metadataFileName contextId) = some (DiskFile.metaRecord m) ∧
    lookupKey s1.contextCache contextId = some context := by
  by_cases h1 : contextFileName contextId ∈ s.failing
  · rw [ContextStorage.saveContext] at h
    simp [writeFileAt, h1] at h
  · by_cases h2 : metadataFileName contextId ∈ s.failing
    · rw [ContextStorage.saveContext] at h
      simp [writeFileAt, h1, h2] at h
    · rw [ContextStorage.saveContext] at h
      simp only [writeFileAt, h1, h2, if_false, ite_false, if_neg, not_false_iff] at h
      obtain ⟨hm, hs⟩ := Prod.mk.injEq .. ▸ h
      rw [Option.some.injEq] at hm
      subst hm
      subst hs
      refine ⟨rfl, ?_, ?_, ?_⟩
      · exact lookupKey_setKey_self ..
      · exact lookupKey_setKey_self ..
      · exact lookupKey_setKey_self ..

/-- Claim C1, counterexample: on a fresh store, two successive saves of
`"c1"` with no caller-supplied version both return version 1 (the claim
requires 1 then 2), and a caller-supplied `version` of 41 yields 42 (the
claim requires it to be ignored). -/
theorem c1_counterexample :
    ((ContextStorage.saveContext {} "c1" (Json.str "a") {} "t1").1.map MetaObj.version
        = some (some 1)) ∧
    ((ContextStorage.saveContext (ContextStorage.saveContext {} "c1" (Json.str "a") {} "t1").2
          "c1" (Json.str "a") {} "t2").1.map MetaObj.version
        = some (some 1)) ∧
    ((ContextStorage.saveContext {} "c1" (Json.str "a") { version := some 41 } "t1").1.map
            MetaObj.version
        = some (some 42)) ∧
    ¬ ((some (some (1 : Int)) : Option (Option Int)) = some (some 2)) :=
  ⟨rfl, rfl, rfl, by decide⟩

/-- Witness for `c1_version_from_caller_metadata` at a concrete save. -/
theorem c1_version_from_caller_metadata_witness :
    let m : MetaObj := { version := some 1, lastModified := some "t", size := some 4 }
    let s1 : Srv :=
      { disk := [("c1.json", DiskFile.payload Json.null), ("c1.meta.json", DiskFile.metaRecord m)]
        contextCache := [("c1", Json.null)]
        metadataCache := [("c1", m)]
        events := [BusEvent.contextUpdated "c1" m] }
    m.version = some (({} : MetaObj).version.getD 0 + 1) ∧
    lookupKey s1.metadataCache "c1" = some m ∧
    lookupKey s1.disk (metadataFileName "c1") = some (DiskFile.metaRecord m) ∧
    lookupKey s1.contextCache "c1" = some Json.null :=
  c1_version_from_caller_metadata {} "c1" Json.null {} "t" _ _ rfl

/-- Claim C2: the code does not suppress the publish step when applying
changes received from upstream.  The anonymous stream listeners call the
ordinary `saveContext` / `deleteContext`, which emit `contextUpdated` /
`contextDeleted` on the local EventBus even though the comments above both
calls say the save and delete happen without emitting events to prevent
loops.  Evaluating the listeners on a fresh replica shows the emissions. -/
theorem c2_upstream_apply_emits :
    (syncStreamUpdate {} "c1" { version := some 1 } (Json.str "v") "t1").events
      = [BusEvent.contextUpdated "c1"
          { version := some 2, lastModified := some "t1", size := some 3, extra := [] }] ∧
    (syncStreamDelete (syncStreamUpdate {} "c1" { version := some 1 } (Json.str "v") "t1")
          "c1").events
      = [BusEvent.contextUpdated "c1"
           { version := some 2, lastModified := some "t1", size := some 3, extra := [] },
         BusEvent.contextDeleted "c1"] :=
  ⟨rfl, rfl⟩

/-- When `getMetadata` reports a miss, it leaves the state unchanged. -/
theorem getMetadata_of_miss (s : Srv) (contextId : String)
    (h : (ContextStorage.getMetadata s contextId).1 = none) :
    ContextStorage.getMetadata s contextId = (none, s) := by
  unfold ContextStorage.getMetadata at h ⊢
  cases hc : lookupKey s.metadataCache contextId with
  | some m => simp [hc] at h
  | none =>
    cases hf : readFileAt s (metadataFileName contextId) with
    | none => simp [hc, hf]
    | some f =>
      cases f with
      | payload c => simp [hc, hf]
      | metaRecord m => simp [hc, hf] at h

/-- Claim C3, as amended: the stream `update` listener applies every received
event unconditionally through `saveContext` (there is no version guard, and
`lastModified` is rewritten with the delivery time).  Delivering the same
`(contextId, version)` update twice leaves the stored payload, the payload
file and the stored version identical to one delivery, but the stored
`lastModified` is that of the second delivery, so re-delivery is idempotent
only up to the timestamp. -/
theorem c3_stream_redelivery (s : Srv) (contextId : String) (cm : MetaObj) (ctx : Json)
    (t1 t2 : String) (h1 : contextFileName contextId ∉ s.failing)
    (h2 : metadataFileName contextId ∉ s.failing) :
    lookupKey (syncStreamUpdate (syncStreamUpdate s contextId cm ctx t1) contextId cm ctx
          t2).contextCache contextId
      = lookupKey (syncStreamUpdate s contextId cm ctx t1).contextCache contextId ∧
    (lookupKey (syncStreamUpdate (syncStreamUpdate s contextId cm ctx t1) contextId cm ctx
            t2).metadataCache contextId).map MetaObj.version
      = (lookupKey (syncStreamUpdate s contextId cm ctx t1).metadataCache contextId).map
          MetaObj.version ∧
    (lookupKey (syncStreamUpdate (syncStreamUpdate s contextId cm ctx t1) contextId cm ctx
            t2).metadataCache contextId).map MetaObj.lastModified
      = some (some t2) ∧
    lookupKey (syncStreamUpdate (syncStreamUpdate s contextId cm ctx t1) contextId cm ctx
          t2).disk (contextFileName contextId)
      = lookupKey (syncStreamUpdate s contextId cm ctx t1).disk (contextFileName contextId) := by
  have hmc : metadataFileName contextId ≠ contextFileName contextId :=
    (contextFileName_ne_metadataFileName contextId).symm
  simp only [syncStreamUpdate, ContextStorage.saveContext, writeFileAt]
  refine ⟨?_, ?_, ?_, ?_⟩ <;>
    simp [h1, h2, lookupKey_setKey_self, lookupKey_setKey_ne, hmc,
      ContextStorage.updatedMetadata]

/-- Witness for `c3_stream_redelivery` at a concrete double delivery. -/
theorem c3_stream_redelivery_witness :
    lookupKey (syncStreamUpdate (syncStreamUpdate {} "c" { version := some 1 } Json.null "t1")
          "c" { version := some 1 } Json.null "t2").contextCache "c"
      = lookupKey (syncStreamUpdate {} "c" { version := some 1 } Json.null "t1").contextCache
          "c" ∧
    (lookupKey (syncStreamUpdate (syncStreamUpdate {} "c" { version := some 1 } Json.null "t1")
            "c" { version := some 1 } Json.null "t2").metadataCache "c").map MetaObj.version
      = (lookupKey (syncStreamUpdate {} "c" { version := some 1 } Json.null
            "t1").metadataCache "c").map MetaObj.version ∧
    (lookupKey (syncStreamUpdate (syncStreamUpdate {} "c" { version := some 1 } Json.null "t1")
            "c" { version := some 1 } Json.null "t2").metadataCache "c").map MetaObj.lastModified
      = some (some "t2") ∧
    lookupKey (syncStreamUpdate (syncStreamUpdate {} "c" { version := some 1 } Json.null "t1")
          "c" { version := some 1 } Json.null "t2").disk (contextFileName "c")
      = lookupKey (syncStreamUpdate {} "c" { version := some 1 } Json.null "t1").disk
          (contextFileName "c") :=
  c3_stream_redelivery {} "c" { version := some 1 } Json.null "t1" "t2" (by simp) (by simp)

/-- Claim C3, counterexample: on a replica storing version 5 of context `c`,
a received update announcing version 3 is not a no-op: it overwrites the
payload and lowers the stored version to 4, and a second delivery of the same
event changes the stored metadata again (a fresh `lastModified`). -/
theorem c3_counterexample :
    let m5 : MetaObj := { version := some 5 }
    let s0 : Srv :=
      { disk := [("c.json", DiskFile.payload (Json.str "old")),
                 ("c.meta.json", DiskFile.metaRecord m5)]
        contextCache := [("c", Json.str "old")]
        metadataCache := [("c", m5)] }
    let s1 := syncStreamUpdate s0 "c" { version := some 3 } (Json.str "new") "t1"
    ((lookupKey s0.metadataCache "c").map MetaObj.version = some (some 5)) ∧
    ((lookupKey s1.metadataCache "c").map MetaObj.version = some (some 4)) ∧
    (lookupKey s1.contextCache "c" = some (Json.str "new")) ∧
    ¬ ((lookupKey s1.metadataCache "c").map MetaObj.version
        = (lookupKey s0.metadataCache "c").map MetaObj.version) ∧
    ¬ ((lookupKey (syncStreamUpdate s1 "c" { version := some 3 } (Json.str "new")
            "t2").metadataCache "c").map MetaObj.lastModified
        = (lookupKey s1.metadataCache "c").map MetaObj.lastModified) :=
  ⟨rfl, rfl, rfl, by decide, by decide⟩

/-- Claim C4, as amended: a context applied from upstream (stream update, or
catch-up of a context with no local metadata) is stored with version equal to
the upstream-announced version (0 when absent or falsy) plus 1, not with the
exact announced version: the stored version exceeds the announcement by
exactly 1.  In scenario S4, central announcing version 3 leaves the regional
at version 4. -/
theorem c4_upstream_version_bumped (s : Srv) (contextId : String) (cm : MetaObj) (ctx : Json)
    (now : String) (h1 : contextFileName contextId ∉ s.failing)
    (h2 : metadataFileName contextId ∉ s.failing) :
    ((lookupKey (syncStreamUpdate s contextId cm ctx now).metadataCache contextId).map
        MetaObj.version = some (some (cm.version.getD 0 + 1))) ∧
    (∀ entry : CatchupEntry, entry.id = contextId →
      (ContextStorage.getMetadata s contextId).1 = none →
      (lookupKey (syncCatchupOne s entry ctx now).1.metadataCache contextId).map
          MetaObj.version = some (some (entry.metadata.version.getD 0 + 1))) := by
  constructor
  · simp only [syncStreamUpdate]
    rw [saveContext_ok s contextId ctx cm now h1 h2]
    simp [lookupKey_setKey_self, ContextStorage.updatedMetadata]
  · intro entry hid hmiss
    subst hid
    have hr := getMetadata_of_miss s entry.id hmiss
    simp only [syncCatchupOne, hr]
    rw [saveContext_ok s entry.id ctx entry.metadata now h1 h2]
    simp [lookupKey_setKey_self, ContextStorage.updatedMetadata]

/-- Witness for `c4_upstream_version_bumped` at a concrete apply (announced
version 3, fresh replica). -/
theorem c4_upstream_version_bumped_witness :
    ((lookupKey (syncStreamUpdate {} "c3" { version := some 3 } (Json.str "v") "t").metadataCache
          "c3").map MetaObj.version
        = some (some (({ version := some 3 } : MetaObj).version.getD 0 + 1))) ∧
    (∀ entry : CatchupEntry, entry.id = "c3" →
      (ContextStorage.getMetadata {} "c3").1 = none →
      (lookupKey (syncCatchupOne {} entry (Json.str "v") "t").1.metadataCache "c3").map
          MetaObj.version = some (some (entry.metadata.version.getD 0 + 1))) :=
  c4_upstream_version_bumped {} "c3" { version := some 3 } (Json.str "v") "t"
    (by simp) (by simp)

/-- Claim C4, counterexample: a fresh replica catching up a context whose
upstream metadata announces version 3 stores version 4, not 3. -/
theorem c4_counterexample :
    ((lookupKey (syncCatchupOne {} { id := "c3", metadata := { version := some 3 } }
            (Json.str "v3") "t1").1.metadataCache "c3").map MetaObj.version
        = some (some 4)) ∧
    ¬ ((lookupKey (syncCatchupOne {} { id := "c3", metadata := { version := some 3 } }
            (Json.str "v3") "t1").1.metadataCache "c3").map MetaObj.version
        = some (some 3)) :=
  ⟨rfl, by decide⟩

/-- Claim C5, as amended: a successful delete removes both the payload and
the metadata record and drops both cache entries, after it both the get and
the get-metadata routes answer 404 NotFound, and a subsequent save with no
caller-supplied version recreates the context at version 1 (a caller-supplied
version v yields v + 1 instead, per C1). -/
theorem c5_delete_then_not_found_then_version_one (s : Srv) (contextId : String) (s2 : Srv)
    (h : ContextStorage.deleteContext s contextId = (true, s2)) (cfg : Config) (context : Json)
    (now : String) :
    lookupKey s2.disk (contextFileName contextId) = none ∧
    lookupKey s2.disk (metadataFileName contextId) = none ∧
    lookupKey s2.contextCache contextId = none ∧
    lookupKey s2.metadataCache contextId = none ∧
    (getContextHandler cfg s2 contextId).1.status = 404 ∧
    (getMetadataHandler s2 contextId).1.status = 404 ∧
    ((ContextStorage.saveContext s2 contextId context {} now).1.map MetaObj.version
        = some (some 1)) := by
  have hmc : metadataFileName contextId ≠ contextFileName contextId :=
    (contextFileName_ne_metadataFileName contextId).symm
  by_cases h1 : contextFileName contextId ∈ s.failing
  · rw [ContextStorage.deleteContext] at h
    simp [unlinkFileAt, h1] at h
  · cases hc : lookupKey s.disk (contextFileName contextId) with
    | none =>
      rw [ContextStorage.deleteContext] at h
      simp [unlinkFileAt, h1, hc] at h
    | some f =>
      by_cases h2 : metadataFileName contextId ∈ s.failing
      · rw [ContextStorage.deleteContext] at h
        simp [unlinkFileAt, h1, h2, hc] at h
      · cases hm : lookupKey (delKey s.disk (contextFileName contextId))
            (metadataFileName contextId) with
        | none =>
          rw [ContextStorage.deleteContext] at h
          simp [unlinkFileAt, h1, h2, hc, hm] at h
        | some g =>
          rw [ContextStorage.deleteContext] at h
          simp only [unlinkFileAt, h1, h2, hc, hm, if_neg, not_false_iff, ite_false,
            if_false] at h
          obtain ⟨-, hs⟩ := Prod.mk.injEq .. ▸ h
          subst hs
          refine ⟨?_, ?_, ?_, ?_, ?_, ?_, ?_⟩
          · simp [lookupKey_delKey_ne, hmc, lookupKey_delKey_self]
          · simp [lookupKey_delKey_self]
          · simp [lookupKey_delKey_self]
          · simp [lookupKey_delKey_self]
          · simp only [getContextHandler, ContextStorage.getContext, readFileAt]
            simp [h1, lookupKey_delKey_ne, hmc, lookupKey_delKey_self]
            split <;> rfl
          · simp only [getMetadataHandler, ContextStorage.getMetadata, readFileAt]
            simp [h2, lookupKey_delKey_self]
          · simp [ContextStorage.saveContext, writeFileAt, h1, h2,
              ContextStorage.updatedMetadata]

/-- Witness for `c5_delete_then_not_found_then_version_one`: save then delete
a context on a fresh store and check the conclusion concretely. -/
theorem c5_delete_then_not_found_then_version_one_witness :
    let s1 := (ContextStorage.saveContext {} "c1" (Json.str "a") {} "t1").2
    let m : MetaObj := { version := some 1, lastModified := some "t1", size := some 3 }
    let s2 : Srv :=
      { disk := [], failing := [], contextCache := [], metadataCache := []
        events := [BusEvent.contextUpdated "c1" m, BusEvent.contextDeleted "c1"] }
    let cfg : Config := { serverType := ServerType.central }
    lookupKey s2.disk (contextFileName "c1") = none ∧
    lookupKey s2.disk (metadataFileName "c1") = none ∧
    lookupKey s2.contextCache "c1" = none ∧
    lookupKey s2.metadataCache "c1" = none ∧
    (getContextHandler cfg s2 "c1").1.status = 404 ∧
    (getMetadataHandler s2 "c1").1.status = 404 ∧
    ((ContextStorage.saveContext s2 "c1" (Json.str "b") {} "t3").1.map MetaObj.version
        = some (some 1)) := by
  intro s1 m s2 cfg
  exact c5_delete_then_not_found_then_version_one s1 "c1" s2 rfl cfg (Json.str "b") "t3"

/-- Claim C5, counterexample: after a successful delete, a save that carries a
caller-supplied `metadata.version` of 5 recreates the context at version 6,
not at version 1 as the claim requires of every new save. -/
theorem c5_counterexample :
    let s1 := (ContextStorage.saveContext {} "c1" (Json.str "a") {} "t1").2
    let d := ContextStorage.deleteContext s1 "c1"
    d.1 = true ∧
    ((ContextStorage.saveContext d.2 "c1" (Json.str "b") { version := some 5 } "t3").1.map
        MetaObj.version = some (some 6)) ∧
    ¬ ((some (some (6 : Int)) : Option (Option Int)) = some (some 1)) :=
  ⟨rfl, rfl, by decide⟩

/-- Claim C6, as amended: the get route cannot distinguish an absent context
from a disk read failure: `getContext` catches every read error and returns
`null`, so the route answers 404 NotFound in both cases (the error is only
logged); the get path produces no 500/IOError response at all, its status is
always 200 or 404. -/
theorem c6_get_conflates_failure_with_not_found (cfg : Config) (s : Srv) (contextId : String) :
    ((getContextHandler cfg s contextId).1.status = 200 ∨
      (getContextHandler cfg s contextId).1.status = 404) ∧
    (contextFileName contextId ∈ s.failing →
      lookupKey s.contextCache contextId = none →
      (getContextHandler cfg s contextId).1.status = 404) := by
  constructor
  · rcases hr : (ContextStorage.getContext s contextId).1 with _ | c
    · simp only [getContextHandler, hr]
      split <;> simp
    · by_cases ht : jsTruthy c
      · simp [getContextHandler, hr, ht]
      · simp only [getContextHandler, hr, ht]
        simp only [Bool.false_eq_true, if_false]
        split <;> simp
  · intro hf hcache
    have hget : ContextStorage.getContext s contextId = (none, s) := by
      unfold ContextStorage.getContext
      simp [hcache, readFileAt, hf]
    simp only [getContextHandler, hget]
    split <;> simp

/-- Witness for `c6_get_conflates_failure_with_not_found` on a node whose
payload file for `c` exists on disk but whose read raises. -/
theorem c6_get_conflates_failure_with_not_found_witness :
    (getContextHandler { serverType := ServerType.central }
        { disk := [("c.json", DiskFile.payload (Json.str "x"))], failing := ["c.json"] }
        "c").1.status = 404 :=
  (c6_get_conflates_failure_with_not_found { serverType := ServerType.central }
      { disk := [("c.json", DiskFile.payload (Json.str "x"))], failing := ["c.json"] } "c").2
    (by decide) rfl

/-- Claim C6, counterexample: on a central node where the payload file of `c`
is present but its read fails, the get route answers 404 with the NotFound
body, not 500: the disk failure is reported to the client as NotFound. -/
theorem c6_counterexample :
    let sfail : Srv :=
      { disk := [("c.json", DiskFile.payload (Json.str "x"))], failing := ["c.json"] }
    let cfg : Config := { serverType := ServerType.central }
    lookupKey sfail.disk (contextFileName "c") = some (DiskFile.payload (Json.str "x")) ∧
    contextFileName "c" ∈ sfail.failing ∧
    (getContextHandler cfg sfail "c").1.status = 404 ∧
    ¬ ((getContextHandler cfg sfail "c").1.status = 500) ∧
    (getContextHandler cfg sfail "c").1.body = RespBody.errMsg "Context not found" :=
  ⟨rfl, by decide, rfl, by decide, rfl⟩

/-- A save leaves every disk entry other than the two slots of the saved
contextId unchanged. -/
theorem saveContext_disk_other (s : Srv) (contextId : String) (context : Json)
    (metadata : MetaObj) (now : String) (p : String) (hp1 : p ≠ contextFileName contextId)
    (hp2 : p ≠ metadataFileName contextId) :
    lookupKey (ContextStorage.saveContext s contextId context metadata now).2.disk p
      = lookupKey s.disk p := by
  unfold ContextStorage.saveContext writeFileAt
  by_cases hf1 : contextFileName contextId ∈ s.failing
  · simp [hf1]
  · by_cases hf2 : metadataFileName contextId ∈ s.failing
    · simp [hf1, hf2, lookupKey_setKey_ne _ _ _ _ (Ne.symm hp1)]
    · simp [hf1, hf2, lookupKey_setKey_ne _ _ _ _ (Ne.symm hp1),
        lookupKey_setKey_ne _ _ _ _ (Ne.symm hp2)]

/-- A delete leaves every disk entry other than the two slots of the deleted
contextId unchanged. -/
theorem deleteContext_disk_other (s : Srv) (contextId : String) (p : String)
    (hp1 : p ≠ contextFileName contextId) (hp2 : p ≠ metadataFileName contextId) :
    lookupKey (ContextStorage.deleteContext s contextId).2.disk p = lookupKey s.disk p := by
  unfold ContextStorage.deleteContext unlinkFileAt
  by_cases hf1 : contextFileName contextId ∈ s.failing
  · simp [hf1]
  · cases hc : lookupKey s.disk (contextFileName contextId) with
    | none => simp [hf1, hc]
    | some f =>
      by_cases hf2 : metadataFileName contextId ∈ s.failing
      · simp [hf1, hf2, hc, lookupKey_delKey_ne _ _ _ (Ne.symm hp1)]
      · cases hm : lookupKey (delKey s.disk (contextFileName contextId))
            (metadataFileName contextId) with
        | none => simp [hf1, hf2, hc, hm, lookupKey_delKey_ne _ _ _ (Ne.symm hp1)]
        | some g =>
          simp [hf1, hf2, hc, hm, lookupKey_delKey_ne _ _ _ (Ne.symm hp1),
            lookupKey_delKey_ne _ _ _ (Ne.symm hp2)]

/-- Claim C7, as amended: the server performs no contextId validation at all
(an id that is empty or contains a path separator or a NUL character is
accepted, never rejected with 400 — only a missing or falsy payload is), and
each operation touches exactly the two computed slots `{id}.json` and
`{id}.meta.json`; since those names are joined onto the data directory
unsanitized, an id containing a separator or dot-dot makes them resolve
outside the data directory. -/
theorem c7_no_id_validation (cfg : Config) (s : Srv) (contextId : String) (body : PutBody)
    (now : String) (peers : List Peer) (outcome : Nat → PropOutcome) :
    (∀ c, body.context = some c → jsTruthy c = true →
      (putContextHandler cfg s contextId body now peers outcome).1.status ≠ 400) ∧
    (∀ p, p ≠ contextFileName contextId → p ≠ metadataFileName contextId →
      lookupKey (putContextHandler cfg s contextId body now peers outcome).2.1.disk p
        = lookupKey s.disk p) ∧
    (∀ p, p ≠ contextFileName contextId → p ≠ metadataFileName contextId →
      lookupKey (deleteContextHandler cfg s contextId peers outcome).2.1.disk p
        = lookupKey s.disk p) := by
  refine ⟨?_, ?_, ?_⟩
  · intro c hb ht
    rcases hsv : ContextStorage.saveContext s contextId c body.metadata now with ⟨om, s1⟩
    cases om <;> simp [putContextHandler, hb, ht, hsv]
  · intro p hp1 hp2
    rcases hb : body.context with _ | c
    · simp [putContextHandler, hb]
    · by_cases ht : jsTruthy c
      · have hd := saveContext_disk_other s contextId c body.metadata now p hp1 hp2
        rcases hsv : ContextStorage.saveContext s contextId c body.metadata now with ⟨om, s1⟩
        rw [hsv] at hd
        cases om <;> simp [putContextHandler, hb, ht, hsv, hd]
      · simp [putContextHandler, hb, ht]
  · intro p hp1 hp2
    have hd := deleteContext_disk_other s contextId p hp1 hp2
    rcases hr : ContextStorage.deleteContext s contextId with ⟨ok, s1⟩
    rw [hr] at hd
    cases ok <;> simp [deleteContextHandler, hr, hd]

/-- Witness for `c7_no_id_validation` at the traversal id `../evil`. -/
theorem c7_no_id_validation_witness :
    ((putContextHandler { serverType := ServerType.central } {} "../evil"
          { context := some (Json.str "x") } "t" [] (fun _ => PropOutcome.err "e")).1.status
        ≠ 400) ∧
    lookupKey (putContextHandler { serverType := ServerType.central } {} "../evil"
          { context := some (Json.str "x") } "t" [] (fun _ => PropOutcome.err "e")).2.1.disk
        "unrelated.json"
      = lookupKey ({} : Srv).disk "unrelated.json" ∧
    lookupKey (deleteContextHandler { serverType := ServerType.central } {} "../evil" []
          (fun _ => PropOutcome.err "e")).2.1.disk "unrelated.json"
      = lookupKey ({} : Srv).disk "unrelated.json" :=
  ⟨(c7_no_id_validation { serverType := ServerType.central } {} "../evil"
        { context := some (Json.str "x") } "t" [] (fun _ => PropOutcome.err "e")).1
      (Json.str "x") rfl rfl,
   (c7_no_id_validation { serverType := ServerType.central } {} "../evil"
        { context := some (Json.str "x") } "t" [] (fun _ => PropOutcome.err "e")).2.1
      "unrelated.json" (by decide) (by decide),
   (c7_no_id_validation { serverType := ServerType.central } {} "../evil"
        { context := some (Json.str "x") } "t" [] (fun _ => PropOutcome.err "e")).2.2
      "unrelated.json" (by decide) (by decide)⟩

/-- Claim C7, counterexample: the ids `../evil`, the empty id and an id with
a NUL character are all accepted (status 200, not 400), and the file slot
written for `../evil` resolves outside the data directory. -/
theorem c7_counterexample :
    let cfg : Config :=
      { serverType := ServerType.central, dataDir := "data", hasTailscale := false }
    let body : PutBody := { context := some (Json.str "x") }
    let r := putContextHandler cfg {} "../evil" body "t1" [] (fun _ => PropOutcome.err "down")
    r.1.status = 200 ∧
    lookupKey r.2.1.disk "../evil.json" = some (DiskFile.payload (Json.str "x")) ∧
    staysWithin "data" (contextFileName "../evil") = false ∧
    (putContextHandler cfg {} "" body "t1" [] (fun _ => PropOutcome.err "down")).1.status
      = 200 ∧
    (putContextHandler cfg {} "a\x00b" body "t1" [] (fun _ => PropOutcome.err "down")).1.status
      = 200 :=
  ⟨rfl, rfl, by decide, rfl, rfl⟩

/-- Claim C8: the HTTP response and the local state of the PUT and DELETE
routes are identical under every fan-out outcome (success depends only on the
local store operation and propagation never fails or blocks the request);
each outbound per-peer request carries the 10-second axios timeout; and a
per-peer failure is absorbed into a `success: false` result entry, one entry
per discovered regional peer. -/
theorem c8_response_depends_only_on_local_store (cfg : Config) (s : Srv) (contextId : String)
    (body : PutBody) (now : String) (peers : List Peer) (o1 o2 : Nat → PropOutcome)
    (context : Json) (metadata : MetaObj) :
    (putContextHandler cfg s contextId body now peers o1).1
      = (putContextHandler cfg s contextId body now peers o2).1 ∧
    (putContextHandler cfg s contextId body now peers o1).2.1
      = (putContextHandler cfg s contextId body now peers o2).2.1 ∧
    (deleteContextHandler cfg s contextId peers o1).1
      = (deleteContextHandler cfg s contextId peers o2).1 ∧
    (deleteContextHandler cfg s contextId peers o1).2.1
      = (deleteContextHandler cfg s contextId peers o2).2.1 ∧
    (∀ p : Peer, (propagationRequest cfg.port p contextId).timeoutMs = 10000 ∧
      (deletionRequest cfg.port p contextId).timeoutMs = 10000) ∧
    ((propagateToRegionals cfg.port peers contextId context metadata o1).map PropResult.success
      = (discoverRegionalServers peers).enum.map (fun pr => outcomeOk (o1 pr.1))) ∧
    ((propagateDeletionToRegionals cfg.port peers contextId o1).map PropResult.success
      = (discoverRegionalServers peers).enum.map (fun pr => outcomeOk (o1 pr.1))) := by
  refine ⟨?_, ?_, ?_, ?_, ?_, ?_, ?_⟩
  · rcases hb : body.context with _ | c
    · simp [putContextHandler, hb]
    · by_cases ht : jsTruthy c
      · rcases hsv : ContextStorage.saveContext s contextId c body.metadata now with ⟨om, s1⟩
        cases om <;> simp [putContextHandler, hb, ht, hsv]
      · simp [putContextHandler, hb, ht]
  · rcases hb : body.context with _ | c
    · simp [putContextHandler, hb]
    · by_cases ht : jsTruthy c
      · rcases hsv : ContextStorage.saveContext s contextId c body.metadata now with ⟨om, s1⟩
        cases om <;> simp [putContextHandler, hb, ht, hsv]
      · simp [putContextHandler, hb, ht]
  · rcases hr : ContextStorage.deleteContext s contextId with ⟨ok, s1⟩
    cases ok <;> simp [deleteContextHandler, hr]
  · rcases hr : ContextStorage.deleteContext s contextId with ⟨ok, s1⟩
    cases ok <;> simp [deleteContextHandler, hr]
  · intro p
    exact ⟨rfl, rfl⟩
  · unfold propagateToRegionals
    rw [List.map_map]
    apply List.map_congr_left
    intro a ha
    cases ho : o1 a.1 <;> simp [Function.comp, ho, outcomeOk]
  · unfold propagateDeletionToRegionals
    rw [List.map_map]
    apply List.map_congr_left
    intro a ha
    cases ho : o1 a.1 <;> simp [Function.comp, ho, outcomeOk]

/-- Claim C9, as amended: the PUT route checks the payload with JavaScript
truthiness (`if (!context)`): every truthy JSON value is accepted (200) and
round-trips through a subsequent GET, but the falsy JSON values `false`, `0`,
`null` and the empty string are rejected with the same 400 response as a
missing payload, so the payload is not fully opaque. -/
theorem c9_truthy_roundtrip_falsy_rejected (cfg : Config) (s : Srv) (contextId : String)
    (v : Json) (now : String) (peers : List Peer) (outcome : Nat → PropOutcome)
    (metadata : MetaObj) (h1 : contextFileName contextId ∉ s.failing)
    (h2 : metadataFileName contextId ∉ s.failing) :
    (jsTruthy v = true →
      (putContextHandler cfg s contextId { context := some v, metadata := metadata } now peers
          outcome).1.status = 200 ∧
      (getContextHandler cfg
          (putContextHandler cfg s contextId { context := some v, metadata := metadata } now
              peers outcome).2.1 contextId).1
        = { status := 200, body := RespBody.jsonValue v }) ∧
    (jsTruthy v = false →
      (putContextHandler cfg s contextId { context := some v, metadata := metadata } now peers
          outcome).1 = { status := 400, body := RespBody.errMsg "Context data is required" }) ∧
    ((putContextHandler cfg s contextId { context := none, metadata := metadata } now peers
        outcome).1 = { status := 400, body := RespBody.errMsg "Context data is required" }) := by
  have hs := saveContext_ok s contextId v metadata now h1 h2
  refine ⟨?_, ?_, ?_⟩
  · intro ht
    constructor
    · simp [putContextHandler, ht, hs]
    · simp only [putContextHandler, ht, hs]
      simp [getContextHandler, ContextStorage.getContext, lookupKey_setKey_self, ht]
  · intro hf
    simp [putContextHandler, hf]
  · simp [putContextHandler]

/-- Witness for `c9_truthy_roundtrip_falsy_rejected` at a truthy payload
(`{}`) and a falsy payload (`false`). -/
theorem c9_truthy_roundtrip_falsy_rejected_witness :
    ((putContextHandler { serverType := ServerType.central } {} "c"
          { context := some (Json.obj []) } "t" [] (fun _ => PropOutcome.err "e")).1.status
        = 200 ∧
      (getContextHandler { serverType := ServerType.central }
          (putContextHandler { serverType := ServerType.central } {} "c"
              { context := some (Json.obj []) } "t" [] (fun _ => PropOutcome.err "e")).2.1
          "c").1
        = { status := 200, body := RespBody.jsonValue (Json.obj []) }) ∧
    ((putContextHandler { serverType := ServerType.central } {} "c"
          { context := some (Json.bool false) } "t" [] (fun _ => PropOutcome.err "e")).1
        = { status := 400, body := RespBody.errMsg "Context data is required" }) :=
  ⟨(c9_truthy_roundtrip_falsy_rejected { serverType := ServerType.central } {} "c"
        (Json.obj []) "t" [] (fun _ => PropOutcome.err "e") {} (by simp) (by simp)).1 rfl,
   (c9_truthy_roundtrip_falsy_rejected { serverType := ServerType.central } {} "c"
        (Json.bool false) "t" [] (fun _ => PropOutcome.err "e") {} (by simp) (by simp)).2.1
     rfl⟩

/-- Claim C9, counterexample: PUT with payload `false`, `0`, `null` or `""`
is rejected with 400 (the claim requires success for every JSON value). -/
theorem c9_counterexample :
    let cfg : Config := { serverType := ServerType.central }
    let put := fun (v : Json) => (putContextHandler cfg {} "c" { context := some v } "t" []
        (fun _ => PropOutcome.err "e")).1.status
    put (Json.bool false) = 400 ∧ put (Json.num 0) = 400 ∧ put Json.null = 400 ∧
    put (Json.str "") = 400 ∧ ¬ ((400 : Nat) = 200) :=
  ⟨rfl, rfl, rfl, rfl, by decide⟩

/-- Claim C10: for the contextId `"a.meta.x"`, whose name contains the
substring `.meta.`, a save on a fresh store succeeds with version 1 and
`getContext` returns the payload, yet `listContexts` returns the empty
listing: the save/list round-trip fails. -/
theorem c10_saved_id_missing_from_listing :
    ((ContextStorage.saveContext {} "a.meta.x" (Json.str "p") {} "t1").1.map MetaObj.version
        = some (some 1)) ∧
    (ContextStorage.getContext
          (ContextStorage.saveContext {} "a.meta.x" (Json.str "p") {} "t1").2 "a.meta.x").1
      = some (Json.str "p") ∧
    ContextStorage.listContexts
        (ContextStorage.saveContext {} "a.meta.x" (Json.str "p") {} "t1").2 = [] :=
  ⟨rfl, rfl, rfl⟩
